import Mathlib

/-!
Shallow embedding of the CSV→tidy reshaping/aggregation pipeline of
`src/analysis.py` (`load_and_preprocess_data`, `create_report`) and the
census-variant loader of `src/visualize_data.py` (`load_and_clean_data`).

A pandas DataFrame cell is modelled as `Option String` (`none` = NaN) before
numeric coercion and `Option Int` (`none` = NaN) after it; ridership counts in
the source data are integers, so numeric cells are modelled as `Int`.
Grouped means are exact rationals (`Rat`).
-/

/-- One row of the wide table after `pd.read_csv(..., skiprows=1)` and the
positional column assignment `df.columns = new_columns` in
`load_and_preprocess_data`: five identifying columns
(事業者名, 路線, 方向, 発駅, 着駅) followed by the band-value cells
(columns 5 and later), positionally aligned with the band-column labels. -/
structure WideRow where
  operator : Option String
  line : Option String
  direction : Option String
  origin : Option String
  dest : Option String
  bands : List (Option String)
deriving DecidableEq, Repr

/-- One melted record: the id columns, the band column `時間帯`, the numeric
value `輸送人員`, and the synthesized composite key `駅間` (empty until the
key-synthesis step runs). -/
structure TidyRecord where
  operator : Option String
  line : Option String
  direction : Option String
  origin : Option String
  dest : Option String
  timeBand : Option String
  value : Option Int
  stationPair : String
deriving DecidableEq, Repr

/-- The 19 band-column labels of `new_columns` (positions 5..23), i.e.
`df.columns[5:]`, which are exactly the melt variable labels. -/
def bandColumns : List String :=
  ["始発～6:59", "7:00～7:29", "7:30～7:59", "8:00～8:29", "8:30～8:59",
   "9:00～9:29", "9:30～9:59", "10:00～10:59", "11:00～12:59", "13:00～14:59",
   "15:00～16:59", "17:00～17:59", "18:00～18:59", "19:00～19:59", "20:00～20:59",
   "21:00～21:59", "22:00～22:59", "23:00～23:59", "24:00～終発"]

/-- The ordered category list `time_order` passed to
`pd.Categorical(..., categories=time_order, ordered=True)`. -/
def time_order : List String :=
  ["始発-6時台", "7時前半", "7時後半", "8時前半", "8時後半",
   "9時前半", "9時後半", "10時台", "11-12時台", "13-14時台",
   "15-16時台", "17時台", "18時台", "19時台", "20時台",
   "21時台", "22時台", "23時台", "24時以降"]

/-- The fixed dictionary `time_mapping`; `pandas.Series.map` sends a label
with no dictionary entry to NaN (`none`), it raises nothing. -/
def time_mapping : String → Option String
  | "始発～6:59" => some "始発-6時台"
  | "7:00～7:29" => some "7時前半"
  | "7:30～7:59" => some "7時後半"
  | "8:00～8:29" => some "8時前半"
  | "8:30～8:59" => some "8時後半"
  | "9:00～9:29" => some "9時前半"
  | "9:30～9:59" => some "9時後半"
  | "10:00～10:59" => some "10時台"
  | "11:00～12:59" => some "11-12時台"
  | "13:00～14:59" => some "13-14時台"
  | "15:00～16:59" => some "15-16時台"
  | "17:00～17:59" => some "17時台"
  | "18:00～18:59" => some "18時台"
  | "19:00～19:59" => some "19時台"
  | "20:00～20:59" => some "20時台"
  | "21:00～21:59" => some "21時台"
  | "22:00～22:59" => some "22時台"
  | "23:00～23:59" => some "23時台"
  | "24:00～終発" => some "24時以降"
  | _ => none

/-- Accumulate a decimal number over characters; any non-digit aborts the
parse (yielding NaN under coercion). -/
def parseDigitsAux : Nat → List Char → Option Nat
  | acc, [] => some acc
  | acc, c :: cs =>
    if c.isDigit then parseDigitsAux (10 * acc + (c.toNat - 48)) cs else none

/-- An optionally-signed decimal integer; the empty character list (empty
cell) is not a number. Ridership/commuter counts in the source data are
integers, so fractional literals are out of the modelled domain. -/
def parseIntChars : List Char → Option Int
  | [] => none
  | '-' :: cs =>
    if cs.isEmpty then none else (parseDigitsAux 0 cs).map (fun n => -(n : Int))
  | cs => (parseDigitsAux 0 cs).map (fun n => (n : Int))

/-- `pd.to_numeric(cell.str.replace(',', ''), errors='coerce')` on one cell:
strip every thousands separator, then parse; a failed parse is NaN
(`none`). -/
def parseValue (s : String) : Option Int :=
  parseIntChars (s.data.filter (fun c => c != ','))

/-- Column-wise forward fill (`Series.fillna(method='ffill')`): a blank cell
takes the nearest preceding non-blank value carried in the accumulator. -/
def colFfill : Option String → List (Option String) → List (Option String)
  | _, [] => []
  | carry, c :: cs =>
    let c2 := c.orElse (fun _ => carry)
    c2 :: colFfill c2 cs

/-- `df[col] = df[col].fillna(method='ffill')` applied to the three
hierarchical columns 事業者名, 路線, 方向, carrying the last non-blank value
of each column down the rows. 発駅 and 着駅 are not filled. -/
def ffillRows : Option String → Option String → Option String → List WideRow → List WideRow
  | _, _, _, [] => []
  | o0, l0, d0, r :: rs =>
    let o := r.operator.orElse (fun _ => o0)
    let l := r.line.orElse (fun _ => l0)
    let d := r.direction.orElse (fun _ => d0)
    { r with operator := o, line := l, direction := d } :: ffillRows o l d rs

/-- The forward-fill step of the loader, starting with no carried values. -/
def ffill (rows : List WideRow) : List WideRow :=
  ffillRows none none none rows

/-- Row predicate of `df.dropna(subset=['発駅','着駅'], how='all')`: a row is
kept iff at least one of 発駅, 着駅 is present. -/
def keepStationRow (r : WideRow) : Bool :=
  r.origin.isSome || r.dest.isSome

/-- A wide row after the numeric coercion of columns 5.. (band cells parsed,
NaN cells stay NaN). -/
structure NumRow where
  operator : Option String
  line : Option String
  direction : Option String
  origin : Option String
  dest : Option String
  vals : List (Option Int)
deriving DecidableEq, Repr

/-- The numeric-coercion loop over `df.columns[5:]`. -/
def toNumeric (r : WideRow) : NumRow :=
  ⟨r.operator, r.line, r.direction, r.origin, r.dest,
   r.bands.map (fun c => c.bind parseValue)⟩

/-- One melted record for band column `label` of row `r`, whose value cell is
the current head of `r.vals`. -/
def meltRec (label : String) (r : NumRow) : TidyRecord :=
  ⟨r.operator, r.line, r.direction, r.origin, r.dest,
   some label, r.vals.getD 0 none, ""⟩

/-- Drop the already-melted leading value cell of a row. -/
def dropHeadVal (r : NumRow) : NumRow :=
  { r with vals := r.vals.tail }

/-- `df.melt(id_vars=[...], var_name='時間帯', value_name='輸送人員')`:
column-major stacking — all rows of the first band column, then all rows of
the second, and so on; the j-th band column label pairs with the j-th value
cell of each row. -/
def melt : List String → List NumRow → List TidyRecord
  | [], _ => []
  | label :: rest, rows =>
    rows.map (meltRec label) ++ melt rest (rows.map dropHeadVal)

/-- `df_melted['時間帯'] = df_melted['時間帯'].map(time_mapping)`: a label
missing from the dictionary becomes NaN. -/
def mapTimeBand (mapping : String → Option String) (r : TidyRecord) : TidyRecord :=
  { r with timeBand := r.timeBand.bind mapping }

/-- `pd.Categorical(values, categories=catOrder, ordered=True)`: a value not
among the declared categories becomes NaN. -/
def toCategoricalStep (catOrder : List String) (r : TidyRecord) : TidyRecord :=
  { r with timeBand := r.timeBand.bind (fun c => if c ∈ catOrder then some c else none) }

/-- `df_melted['発駅'].fillna('')` and `df_melted['着駅'].fillna('')`. -/
def fillStations (r : TidyRecord) : TidyRecord :=
  { r with origin := some (r.origin.getD ""), dest := some (r.dest.getD "") }

/-- `df_melted['駅間'] = df_melted['発駅'] + '-' + df_melted['着駅']`. -/
def addStationPair (r : TidyRecord) : TidyRecord :=
  { r with stationPair := r.origin.getD "" ++ "-" ++ r.dest.getD "" }

/-- The reshaping stages applied to the loaded wide table, before the final
`dropna(subset=['輸送人員'])`: numeric coercion, melt, label mapping,
categorical conversion, station fill, key synthesis. -/
def meltedKeyed (bandCols : List String) (mapping : String → Option String)
    (catOrder : List String) (wide : List WideRow) : List TidyRecord :=
  (((((wide.map toNumeric) |> melt bandCols).map (mapTimeBand mapping)).map
    (toCategoricalStep catOrder)).map fillStations).map addStationPair

/-- The reshaper: stages above followed by
`df_melted.dropna(subset=['輸送人員'])`. -/
def reshapeCore (bandCols : List String) (mapping : String → Option String)
    (catOrder : List String) (wide : List WideRow) : List TidyRecord :=
  (meltedKeyed bandCols mapping catOrder wide).filter (fun r => r.value.isSome)

/-- The whole pipeline parameterized by the band-column schema: forward fill,
section-separator row removal, then the reshaper. The real script instantiates
it with the fixed 19-column schema (`load_and_preprocess_data`); the schema is
a parameter so that the spec's two-band scenario instantiates the same code. -/
def preprocessCore (bandCols : List String) (mapping : String → Option String)
    (catOrder : List String) (rows : List WideRow) : List TidyRecord :=
  reshapeCore bandCols mapping catOrder ((ffill rows).filter keepStationRow)

/-- The loaded wide table of `load_and_preprocess_data` just before the
numeric coercion: forward fill, then the station-blank row removal. -/
def loadedWide (rows : List WideRow) : List WideRow :=
  (ffill rows).filter keepStationRow

/-- `load_and_preprocess_data` of `src/analysis.py` with its fixed schema. -/
def load_and_preprocess_data (rows : List WideRow) : List TidyRecord :=
  preprocessCore bandColumns time_mapping time_order rows

/-- The reshaping stages of the fixed-schema pipeline before the final
`dropna(subset=['輸送人員'])` (the melted, mapped, keyed table). -/
def preprocessed_before_drop (rows : List WideRow) : List TidyRecord :=
  meltedKeyed bandColumns time_mapping time_order (loadedWide rows)

/-- Sum of the 輸送人員 column over tidy records with composite key `k`
(NaN values contribute nothing). -/
def tidySum (k : String) (l : List TidyRecord) : Int :=
  ((l.filter (fun r => r.stationPair == k)).filterMap (fun r => r.value)).sum

/-- The composite key a wide row would produce: blank stations as empty
strings joined by the separator. -/
def wideKey (r : WideRow) : String :=
  (r.origin.getD "") ++ "-" ++ (r.dest.getD "")

/-- Sum of the parseable band cells of one wide row (missing or unparseable
cells excluded). -/
def wideRowSum (r : WideRow) : Int :=
  (r.bands.filterMap (fun c => c.bind parseValue)).sum

/-- Sum of the parseable band cells over the wide rows whose key is `k`. -/
def wideSum (k : String) (l : List WideRow) : Int :=
  ((l.filter (fun r => wideKey r == k)).map wideRowSum).sum

/-- The non-NaN 輸送人員 values of the tidy records in category `c`
(`groupby('時間帯')` group of `c`). -/
def valuesOfCat (c : String) (l : List TidyRecord) : List Int :=
  ((l.filter (fun r => r.timeBand == some c)).filterMap (fun r => r.value))

/-- `groupby('時間帯')['輸送人員'].mean()` for one category: the exact
rational mean (group sum over group size), NaN (`none`) when the group is
empty. -/
def meanOfCat (c : String) (l : List TidyRecord) : Option Rat :=
  let vs := valuesOfCat c l
  if vs.isEmpty then none else some (mkRat vs.sum vs.length)

/-- The grouped-mean series restricted to its non-NaN entries, listed in
declared category order (how pandas orders groups of an ordered
categorical). -/
def groupMeans (catOrder : List String) (l : List TidyRecord) : List (String × Rat) :=
  catOrder.filterMap (fun c => (meanOfCat c l).map (fun m => (c, m)))

/-- `Series.idxmax` over the grouped means: the first category (in declared
order) whose mean is maximal among non-NaN means; `none` when every group is
empty (where pandas raises). -/
def idxmaxByCat (catOrder : List String) (l : List TidyRecord) : Option String :=
  let pairs := groupMeans catOrder l
  (pairs.find? (fun p => pairs.all (fun q => decide (q.2 ≤ p.2)))).map (fun p => p.1)

/-- `Series.idxmin` over the grouped means, symmetric to `idxmaxByCat`. -/
def idxminByCat (catOrder : List String) (l : List TidyRecord) : Option String :=
  let pairs := groupMeans catOrder l
  (pairs.find? (fun p => pairs.all (fun q => decide (p.2 ≤ q.2)))).map (fun p => p.1)

/-- Does the character list `needle` occur at the head of `hay`? -/
def charsAgree : List Char → List Char → Bool
  | [], _ => true
  | _ :: _, [] => false
  | a :: as, b :: bs => a == b && charsAgree as bs

/-- Does `needle` occur anywhere in `hay`? -/
def charsContain (needle : List Char) : List Char → Bool
  | [] => needle.isEmpty
  | b :: bs => charsAgree needle (b :: bs) || charsContain needle bs

/-- `Series.str.contains(name, na=False)` on one cell: a blank cell counts
as no match. -/
def optContains (name : String) : Option String → Bool
  | none => false
  | some s => charsContain name.data s.data

/-- `df[df['発駅'].str.contains(name, na=False) | df['着駅'].str.contains(name, na=False)]`,
the substring filter of `create_station_timeline` and (with name 京都) of
`create_report`. -/
def stationFilter (name : String) (df : List TidyRecord) : List TidyRecord :=
  df.filter (fun r => optContains name r.origin || optContains name r.dest)

/-- The `kyoto_peak` report field of `create_report`, with the filtered
station name as a parameter: the per-category grouped-mean argmax of the
filtered subset when it is non-empty, else the sentinel データなし. -/
def reportPeakField (name : String) (df : List TidyRecord) : Option String :=
  let kd := stationFilter name df
  if kd.length > 0 then idxmaxByCat time_order kd else some "データなし"

/-- The `kyoto_min` report field of `create_report`, symmetric to
`reportPeakField`. -/
def reportMinField (name : String) (df : List TidyRecord) : Option String :=
  let kd := stationFilter name df
  if kd.length > 0 then idxminByCat time_order kd else some "データなし"

/-- The rendered `peak_hour` line of the report template: the format string
is 最も輸送人員が多い時間帯：{peak_hour}時台 and `peak_hour` is
`df.groupby('時間帯')['輸送人員'].mean().idxmax()`. -/
def peakHourLineText (df : List TidyRecord) : Option String :=
  (idxmaxByCat time_order df).map
    (fun c => "最も輸送人員が多い時間帯：" ++ c ++ "時台")

/-- The sort rank an ordered categorical assigns a cell: the category's
index in the declared list, with NaN ranked after every category. -/
def catRank (catOrder : List String) : Option String → Nat
  | none => catOrder.length
  | some s => catOrder.indexOf s

/-- Comparison of tidy records by the declared categorical order of 時間帯. -/
def catLeProp (a b : TidyRecord) : Prop :=
  catRank time_order a.timeBand ≤ catRank time_order b.timeBand

instance : DecidableRel catLeProp := fun a b =>
  Nat.decLe (catRank time_order a.timeBand) (catRank time_order b.timeBand)

/-- Sorting the tidy table by the ordered categorical 時間帯. -/
def sortTidyByCategory (l : List TidyRecord) : List TidyRecord :=
  List.insertionSort catLeProp l

/-- Strict lexicographic (code-point) order on character lists. -/
def charsLt : List Char → List Char → Bool
  | [], [] => false
  | [], _ :: _ => true
  | _ :: _, [] => false
  | a :: as, b :: bs => decide (a < b) || (a == b && charsLt as bs)

/-- Lexicographic (code-point) less-or-equal on character lists. -/
def charsLe : List Char → List Char → Bool
  | [], _ => true
  | _ :: _, [] => false
  | a :: as, b :: bs => decide (a < b) || (a == b && charsLe as bs)

/-- Comparison of tidy records by plain lexical order of the label text
(what sorting would do if the category did not carry its declared order). -/
def labelLeProp (a b : TidyRecord) : Prop :=
  charsLe (a.timeBand.getD "").data (b.timeBand.getD "").data = true

instance : DecidableRel labelLeProp := fun _ _ => by
  unfold labelLeProp; infer_instance

/-- Sorting the tidy table by lexical label order. -/
def sortTidyByLabel (l : List TidyRecord) : List TidyRecord :=
  List.insertionSort labelLeProp l

instance : IsTotal TidyRecord catLeProp :=
  ⟨fun a b =>
    Nat.le_total (catRank time_order a.timeBand) (catRank time_order b.timeBand)⟩

instance : IsTrans TidyRecord catLeProp :=
  ⟨fun _ _ _ h1 h2 => Nat.le_trans h1 h2⟩

/-- A tidy record in the 10時台 band (used to compare sort orders). -/
def c5RecLate : TidyRecord :=
  ⟨none, none, none, some "A", some "B", some "10時台", some 1, "A-B"⟩

/-- A tidy record in the 9時後半 band (used to compare sort orders). -/
def c5RecEarly : TidyRecord :=
  ⟨none, none, none, some "A", some "B", some "9時後半", some 2, "A-B"⟩

/-- The composite key the key-synthesis step computes from a melted record's
own station fields. -/
def rawPairKey (r : TidyRecord) : String :=
  (r.origin.getD "") ++ "-" ++ (r.dest.getD "")

/-- The composite key a numeric wide row gives every record melted from
it. -/
def numKey (r : NumRow) : String :=
  (r.origin.getD "") ++ "-" ++ (r.dest.getD "")

/-- The post-melt per-record stages fused into one function: label mapping,
categorical conversion, station fill and key synthesis. -/
def postStage (mapping : String → Option String) (catOrder : List String)
    (r : TidyRecord) : TidyRecord :=
  addStationPair (fillStations (toCategoricalStep catOrder (mapTimeBand mapping r)))

/-- Key-restricted value total of a melted batch: each record contributes
its value (NaN as 0) when its synthesized key would be `k`. -/
def meltContrib (k : String) (l : List TidyRecord) : Int :=
  (l.map (fun r => if rawPairKey r == k then r.value.getD 0 else 0)).sum

/-- The contribution of one numeric wide row to the key `k`: the sum of its
value cells (NaN as 0) when its key is `k`. -/
def numRowContrib (k : String) (r : NumRow) : Int :=
  if numKey r == k then (r.vals.map (fun v => v.getD 0)).sum else 0

/-- One row of the census table of `src/visualize_data.py` after
`pd.read_csv(..., thousands=',', skiprows=3)`: 地域, 性別, 通勤・通学, and
the age-band cells. -/
structure CensusRow where
  region : Option String
  gender : Option String
  commute : Option String
  ages : List (Option String)
deriving DecidableEq, Repr

/-- A census row after the numeric conversion of the age columns. -/
structure CensusNumRow where
  region : Option String
  gender : Option String
  commute : Option String
  ages : List (Option Int)
deriving DecidableEq, Repr

/-- Row predicate of `df.dropna(how='all')`: every cell of the row is NaN. -/
def censusRowBlank (r : CensusRow) : Bool :=
  r.region.isNone && r.gender.isNone && r.commute.isNone &&
    r.ages.all (fun c => c.isNone)

/-- `load_and_clean_data` of `src/visualize_data.py`: drop fully-blank rows,
keep rows whose 通勤・通学 is present, keep rows whose 性別 differs from
不明 (a blank 性別 passes this comparison, as in pandas), then coerce the
age columns to numbers. -/
def load_and_clean_data (rows : List CensusRow) : List CensusNumRow :=
  ((((rows.filter (fun r => ! censusRowBlank r)).filter
      (fun r => r.commute.isSome)).filter
      (fun r => r.gender != some "不明")).map
    (fun r => ⟨r.region, r.gender, r.commute,
               r.ages.map (fun c => c.bind parseValue)⟩))

/-- The group keys of `groupby('性別')`: the distinct non-NaN genders of the
table (pandas drops NaN group keys). -/
def genderGroups (rows : List CensusNumRow) : List String :=
  (rows.filterMap (fun r => r.gender)).dedup

/-- The grouped gender sums: for each `groupby('性別')` group, the sum of
all its parseable age cells. -/
def groupedGenderSums (rows : List CensusNumRow) : List (String × Int) :=
  (genderGroups rows).map
    (fun g => (g, (((rows.filter (fun r => r.gender == some g)).map
        (fun r => (r.ages.filterMap id).sum)).sum)))

/-- The spec's two-band scenario mapping: two band columns mapped to the
categories early and late. -/
def scenarioMapping : String → Option String
  | "band1" => some "early"
  | "band2" => some "late"
  | _ => none

/-- The spec's scenario input row
["OperatorA","LineX","down","StationA","StationB","1,200","800"]. -/
def scenarioRow : WideRow :=
  ⟨some "OperatorA", some "LineX", some "down", some "StationA",
   some "StationB", [some "1,200", some "800"]⟩

/-- The Loader+Reshaper pipeline run on the scenario dataset. -/
def scenarioTidy : List TidyRecord :=
  preprocessCore ["band1", "band2"] scenarioMapping ["early", "late"] [scenarioRow]

/-- The mean is the group sum divided by the group size, as the rational
division it denotes. -/
theorem meanOfCat_eq_div (c : String) (l : List TidyRecord) :
    meanOfCat c l =
      if (valuesOfCat c l).isEmpty then none
      else some (((valuesOfCat c l).sum : Rat) /
        ((valuesOfCat c l).length : Rat)) := by
  simp [meanOfCat, Rat.mkRat_eq_div]

/-- C2: the scenario row yields exactly the tidy records
(key StationA-StationB, early, 1200) and (key StationA-StationB, late, 800),
and the grouped-mean-per-category argmax over this one-row dataset is
early. -/
theorem C2_scenario_row :
    scenarioTidy =
      [⟨some "OperatorA", some "LineX", some "down", some "StationA",
        some "StationB", some "early", some 1200, "StationA-StationB"⟩,
       ⟨some "OperatorA", some "LineX", some "down", some "StationA",
        some "StationB", some "late", some 800, "StationA-StationB"⟩] ∧
    idxmaxByCat ["early", "late"] scenarioTidy = some "early" := by
  constructor
  · decide
  · decide

/-- C9 (code evaluated at the failing input): a dataset whose grouped-mean
argmax category is 10時台 renders the report's peak-hour line as
最も輸送人員が多い時間帯：10時台時台 — the template appends the unit 時台 to
a category label that already ends in it, so the field shows a doubled
unit. -/
theorem C9_doubled_unit_at_failing_input :
    peakHourLineText
        (load_and_preprocess_data
          [⟨some "Op", some "LineX", some "down", some "A", some "B",
            [none, none, none, none, none, none, none, some "5"]⟩]) =
      some "最も輸送人員が多い時間帯：10時台時台" ∧
    charsContain "時台時台".data "最も輸送人員が多い時間帯：10時台時台".data = true := by
  constructor
  · decide
  · decide

/-- C6: when the substring station filter matches nothing, both the peak and
the minimum report fields are the データなし sentinel, and the computation is
defined (no error path is taken). -/
theorem C6_empty_filter_sentinel (name : String) (df : List TidyRecord)
    (h : stationFilter name df = []) :
    reportPeakField name df = some "データなし" ∧
    reportMinField name df = some "データなし" := by
  constructor
  · simp [reportPeakField, h]
  · simp [reportMinField, h]

/-- Witness for C6: a one-record dataset on stations StationA/StationB
filtered for the absent station name 京都. -/
theorem C6_empty_filter_sentinel_witness :
    reportPeakField "京都"
        [⟨some "Op", some "LineX", some "down", some "StationA",
          some "StationB", some "10時台", some 5, "StationA-StationB"⟩] =
      some "データなし" ∧
    reportMinField "京都"
        [⟨some "Op", some "LineX", some "down", some "StationA",
          some "StationB", some "10時台", some 5, "StationA-StationB"⟩] =
      some "データなし" :=
  C6_empty_filter_sentinel "京都"
    [⟨some "Op", some "LineX", some "down", some "StationA",
      some "StationB", some "10時台", some 5, "StationA-StationB"⟩]
    (by decide)

/-- C1 (counterexample): a band label outside the fixed mapping's vocabulary
does not make the reshaping fail — `Series.map` sends it to NaN and the
pipeline returns normally, with the record retained and its category
blanked (`none`). -/
theorem C1_counterexample_unknown_label_blanked :
    time_mapping "正午" = none ∧
    preprocessCore ["正午"] time_mapping time_order
        [⟨some "Op", some "LineX", some "down", some "A", some "B",
          [some "5"]⟩] =
      [⟨some "Op", some "LineX", some "down", some "A", some "B",
        none, some 5, "A-B"⟩] := by
  constructor
  · decide
  · decide

/-- C4 (counterexample): a first row whose 事業者名 is blank but whose other
cells are not blank keeps its blank hierarchical cell after forward-fill
(there is no preceding value to inherit), so a hierarchical cell can stay
blank on a row that is not entirely blank. -/
theorem C4_counterexample_leading_blank :
    ffill [⟨none, some "LineX", some "down", some "A", some "B", []⟩] =
      [⟨none, some "LineX", some "down", some "A", some "B", []⟩] := by
  decide

/-- C8 (counterexample): a station name that itself contains the separator
produces a composite key with two separators, so composite keys do not
always contain exactly one separator. -/
theorem C8_counterexample_separator_in_name :
    (load_and_preprocess_data
        [⟨some "Op", some "LineX", some "down", some "A-B", some "C",
          [some "5"]⟩]).map (fun r => r.stationPair) = ["A-B-C"] ∧
    "A-B-C".data.count '-' = 2 := by
  constructor
  · decide
  · decide

/-- Column-wise forward fill preserves the column length. -/
theorem colFfill_length :
    ∀ (l : List (Option String)) (carry : Option String),
      (colFfill carry l).length = l.length := by
  intro l
  induction l with
  | nil => intro carry; rfl
  | cons c cs ih => intro carry; simp [colFfill, ih]

/-- The 事業者名 column of the filled table is the column-wise forward fill
of the raw 事業者名 column. -/
theorem ffillRows_map_operator :
    ∀ (rows : List WideRow) (o0 l0 d0 : Option String),
      (ffillRows o0 l0 d0 rows).map (fun r => r.operator) =
        colFfill o0 (rows.map (fun r => r.operator)) := by
  intro rows
  induction rows with
  | nil => intro o0 l0 d0; rfl
  | cons r rs ih => intro o0 l0 d0; simp [ffillRows, colFfill, ih]

/-- The 路線 column of the filled table is the column-wise forward fill of
the raw 路線 column. -/
theorem ffillRows_map_line :
    ∀ (rows : List WideRow) (o0 l0 d0 : Option String),
      (ffillRows o0 l0 d0 rows).map (fun r => r.line) =
        colFfill l0 (rows.map (fun r => r.line)) := by
  intro rows
  induction rows with
  | nil => intro o0 l0 d0; rfl
  | cons r rs ih => intro o0 l0 d0; simp [ffillRows, colFfill, ih]

/-- The 方向 column of the filled table is the column-wise forward fill of
the raw 方向 column. -/
theorem ffillRows_map_direction :
    ∀ (rows : List WideRow) (o0 l0 d0 : Option String),
      (ffillRows o0 l0 d0 rows).map (fun r => r.direction) =
        colFfill d0 (rows.map (fun r => r.direction)) := by
  intro rows
  induction rows with
  | nil => intro o0 l0 d0; rfl
  | cons r rs ih => intro o0 l0 d0; simp [ffillRows, colFfill, ih]

/-- A filled cell is blank exactly when the carried value is blank and every
cell of the column up to and including that position is blank. -/
theorem colFfill_get_none :
    ∀ (l : List (Option String)) (carry : Option String) (i : Nat)
      (h : i < (colFfill carry l).length),
      ((colFfill carry l).get ⟨i, h⟩ = none ↔
        carry = none ∧ (l.take (i + 1)).all (fun c => c.isNone) = true) := by
  intro l
  induction l with
  | nil => intro carry i h; simp [colFfill] at h
  | cons c cs ih =>
    intro carry i h
    cases i with
    | zero =>
      have hget : (colFfill carry (c :: cs)).get ⟨0, h⟩ =
          c.orElse (fun _ => carry) := rfl
      rw [hget]
      cases c <;> simp [Option.orElse, and_comm]
    | succ i =>
      have hlen : i < (colFfill (c.orElse (fun _ => carry)) cs).length := by
        have := h
        simp only [colFfill, List.length_cons] at this
        omega
      have hget : (colFfill carry (c :: cs)).get ⟨i + 1, h⟩ =
          (colFfill (c.orElse (fun _ => carry)) cs).get ⟨i, hlen⟩ := rfl
      rw [hget, ih _ _ hlen]
      cases c <;>
        simp [Option.orElse, List.all_cons, and_assoc]

/-- Forward-filling one hierarchical column: transfer of `colFfill_get_none`
to the fields of `ffill`. -/
theorem ffill_proj_none_iff (f : WideRow → Option String)
    (hmap : ∀ rows : List WideRow,
      (ffill rows).map f = colFfill none (rows.map f))
    (rows : List WideRow) (i : Nat) (h : i < (ffill rows).length) :
    (f ((ffill rows).get ⟨i, h⟩) = none ↔
      ((rows.take (i + 1)).map f).all (fun c => c.isNone) = true) := by
  have hlen2 : i < ((ffill rows).map f).length := by simpa using h
  have hget : ((ffill rows).map f).get ⟨i, hlen2⟩ =
      f ((ffill rows).get ⟨i, h⟩) := by
    simp [List.get_eq_getElem, List.getElem_map]
  have hlen3 : i < (colFfill none (rows.map f)).length := by
    rw [← hmap]; exact hlen2
  have htrans : ((ffill rows).map f).get ⟨i, hlen2⟩ =
      (colFfill none (rows.map f)).get ⟨i, hlen3⟩ :=
    List.get_of_eq (hmap rows) ⟨i, hlen2⟩
  have hiff := colFfill_get_none (rows.map f) none i hlen3
  rw [← htrans, hget] at hiff
  rw [hiff]
  simp [List.map_take]

/-- C4 (amended): after the Loader's forward fill, a hierarchical cell
(事業者名, 路線 or 方向) of row i is blank exactly when that column is blank
on every row up to and including row i (a hierarchical cell can stay blank
only when no preceding row carries a value for it); and the fill is applied
before the station-blank row-removal rule, which classifies the filled
rows. -/
theorem C4_amended_ffill_blank_iff (rows : List WideRow) (i : Nat)
    (h : i < (ffill rows).length) :
    ((((ffill rows).get ⟨i, h⟩).operator = none ↔
        ((rows.take (i + 1)).map (fun r => r.operator)).all
          (fun c => c.isNone) = true) ∧
      (((ffill rows).get ⟨i, h⟩).line = none ↔
        ((rows.take (i + 1)).map (fun r => r.line)).all
          (fun c => c.isNone) = true) ∧
      (((ffill rows).get ⟨i, h⟩).direction = none ↔
        ((rows.take (i + 1)).map (fun r => r.direction)).all
          (fun c => c.isNone) = true)) ∧
    loadedWide rows = (ffill rows).filter keepStationRow := by
  refine ⟨⟨?_, ?_, ?_⟩, rfl⟩
  · exact ffill_proj_none_iff (fun r => r.operator)
      (fun rs => ffillRows_map_operator rs none none none) rows i h
  · exact ffill_proj_none_iff (fun r => r.line)
      (fun rs => ffillRows_map_line rs none none none) rows i h
  · exact ffill_proj_none_iff (fun r => r.direction)
      (fun rs => ffillRows_map_direction rs none none none) rows i h

/-- Witness for C4 (amended): a two-row table whose second row has a blank
事業者名 inherits the first row's value, so its filled operator cell is not
blank and indeed not every cell up to row 1 is blank. -/
theorem C4_amended_ffill_blank_iff_witness :
    ¬(((ffill
        [⟨some "Op", some "LineX", some "down", some "A", some "B", []⟩,
         ⟨none, none, none, some "C", some "D", []⟩]).get
        ⟨1, by decide⟩).operator = none) :=
  fun hnone =>
    by simpa using
      (C4_amended_ffill_blank_iff
        [⟨some "Op", some "LineX", some "down", some "A", some "B", []⟩,
         ⟨none, none, none, some "C", some "D", []⟩]
        1 (by decide)).1.1.mp hnone

/-- C7: the final `dropna(subset=['輸送人員'])` removes exactly the records
whose value is missing — a tidy record survives iff it is in the melted,
keyed table and its value is present — and a record with a legitimate zero
value is retained and participates in the grouped mean. -/
theorem C7_drop_exactly_missing_values :
    (∀ (rows : List WideRow) (r : TidyRecord),
        r ∈ load_and_preprocess_data rows ↔
          r ∈ preprocessed_before_drop rows ∧ r.value ≠ none) ∧
    load_and_preprocess_data
        [⟨some "Op", some "LineX", some "down", some "A", some "B",
          [some "0"]⟩] =
      [⟨some "Op", some "LineX", some "down", some "A", some "B",
        some "始発-6時台", some 0, "A-B"⟩] ∧
    meanOfCat "始発-6時台"
        (load_and_preprocess_data
          [⟨some "Op", some "LineX", some "down", some "A", some "B",
            [some "0"]⟩]) = some 0 := by
  refine ⟨?_, by decide, by decide⟩
  intro rows r
  simp only [load_and_preprocess_data, preprocessCore, reshapeCore,
    preprocessed_before_drop, loadedWide, List.mem_filter,
    Option.isSome_iff_ne_none, decide_eq_true_eq]

/-- Every record produced by the melt carries one of the melted band-column
labels as its raw 時間帯 value. -/
theorem melt_timeBand_mem :
    ∀ (cols : List String) (rows : List NumRow) (r : TidyRecord),
      r ∈ melt cols rows → ∃ l, l ∈ cols ∧ r.timeBand = some l := by
  intro cols
  induction cols with
  | nil => intro rows r h; simp [melt] at h
  | cons c cs ih =>
    intro rows r h
    simp only [melt, List.mem_append, List.mem_map] at h
    rcases h with ⟨r0, _, rfl⟩ | h
    · exact ⟨c, by simp, rfl⟩
    · obtain ⟨l, hl, ht⟩ := ih _ r h
      exact ⟨l, by simp [hl], ht⟩

/-- Each of the 19 fixed band labels resolves to a canonical category of the
declared ordered list. -/
theorem time_mapping_vocab :
    ∀ l ∈ bandColumns, ∃ c, time_mapping l = some c ∧ c ∈ time_order := by
  intro l hl
  simp only [bandColumns, List.mem_cons, List.not_mem_nil, or_false] at hl
  rcases hl with rfl | rfl | rfl | rfl | rfl | rfl | rfl | rfl | rfl | rfl |
    rfl | rfl | rfl | rfl | rfl | rfl | rfl | rfl | rfl <;>
    exact ⟨_, rfl, by decide⟩

/-- C1 (amended): the fixed mapping sends the 19 melted band labels, in
order, to exactly the 19 canonical ordered categories; every tidy record of
the pipeline carries exactly one canonical category; and a label outside
the vocabulary is mapped to missing (blanked) — no error is raised. -/
theorem C1_amended_vocab_mapping :
    bandColumns.map time_mapping = time_order.map some ∧
    (∀ l : String, l ∉ bandColumns → time_mapping l = none) ∧
    (∀ (rows : List WideRow) (r : TidyRecord),
        r ∈ load_and_preprocess_data rows →
        ∃ c, r.timeBand = some c ∧ c ∈ time_order) := by
  refine ⟨by decide, ?_, ?_⟩
  · intro l hl
    unfold time_mapping
    split <;> simp_all [bandColumns]
  · intro rows r hr
    simp only [load_and_preprocess_data, preprocessCore, reshapeCore,
      meltedKeyed, List.mem_filter, List.mem_map] at hr
    obtain ⟨⟨r3, ⟨r2, ⟨r1, ⟨r0, hr0, rfl⟩, rfl⟩, rfl⟩, rfl⟩, _⟩ := hr
    obtain ⟨l, hl, ht⟩ := melt_timeBand_mem _ _ _ hr0
    obtain ⟨c, hc, hco⟩ := time_mapping_vocab l hl
    refine ⟨c, ?_, hco⟩
    simp [addStationPair, fillStations, toCategoricalStep, mapTimeBand,
      ht, hc, hco]

/-- Witness for C1 (amended): the out-of-vocabulary label 中途半端 maps to
missing, and a concrete pipeline record carries a canonical category. -/
theorem C1_amended_vocab_mapping_witness :
    time_mapping "中途半端" = none ∧
    (∃ c, (TidyRecord.mk (some "Op") (some "LineX") (some "down") (some "A")
        (some "B") (some "始発-6時台") (some 5) "A-B").timeBand = some c ∧
      c ∈ time_order) :=
  ⟨C1_amended_vocab_mapping.2.1 "中途半端" (by decide),
   C1_amended_vocab_mapping.2.2
     [⟨some "Op", some "LineX", some "down", some "A", some "B", [some "5"]⟩]
     (TidyRecord.mk (some "Op") (some "LineX") (some "down") (some "A")
        (some "B") (some "始発-6時台") (some 5) "A-B")
     (by decide)⟩

/-- C8 (amended): every tidy record's composite key is its origin and
destination (missing fields contributing the empty string, not omitted)
joined by the deterministic separator, and the key contains exactly one
separator beyond those occurring inside the two station fields — in
particular exactly one separator whenever neither station name itself
contains one. -/
theorem C8_amended_key_shape (rows : List WideRow) (r : TidyRecord)
    (h : r ∈ load_and_preprocess_data rows) :
    r.stationPair = (r.origin.getD "") ++ "-" ++ (r.dest.getD "") ∧
    r.stationPair.data.count '-' =
      (r.origin.getD "").data.count '-' + 1 +
        (r.dest.getD "").data.count '-' := by
  simp only [load_and_preprocess_data, preprocessCore, reshapeCore,
    meltedKeyed, List.mem_filter, List.mem_map] at h
  obtain ⟨⟨r3, ⟨r2, ⟨r1, ⟨r0, hr0, rfl⟩, rfl⟩, rfl⟩, rfl⟩, hval⟩ := h
  refine ⟨rfl, ?_⟩
  simp only [addStationPair, fillStations, String.data_append,
    List.count_append]
  simp [Option.getD]

/-- Witness for C8 (amended): the concrete record produced from a one-row
input, whose key A-B holds exactly one separator. -/
theorem C8_amended_key_shape_witness :
    (TidyRecord.mk (some "Op") (some "LineX") (some "down") (some "A")
        (some "B") (some "始発-6時台") (some 5) "A-B").stationPair =
      ((TidyRecord.mk (some "Op") (some "LineX") (some "down") (some "A")
        (some "B") (some "始発-6時台") (some 5) "A-B").origin.getD "") ++ "-" ++
      ((TidyRecord.mk (some "Op") (some "LineX") (some "down") (some "A")
        (some "B") (some "始発-6時台") (some 5) "A-B").dest.getD "") ∧
    (TidyRecord.mk (some "Op") (some "LineX") (some "down") (some "A")
        (some "B") (some "始発-6時台") (some 5) "A-B").stationPair.data.count '-' =
      ((TidyRecord.mk (some "Op") (some "LineX") (some "down") (some "A")
        (some "B") (some "始発-6時台") (some 5) "A-B").origin.getD "").data.count '-' + 1 +
      ((TidyRecord.mk (some "Op") (some "LineX") (some "down") (some "A")
        (some "B") (some "始発-6時台") (some 5) "A-B").dest.getD "").data.count '-' :=
  C8_amended_key_shape
    [⟨some "Op", some "LineX", some "down", some "A", some "B", [some "5"]⟩]
    (TidyRecord.mk (some "Op") (some "LineX") (some "down") (some "A")
      (some "B") (some "始発-6時台") (some 5) "A-B")
    (by decide)

/-- C10 (counterexample): a census row whose 性別 is 総数 survives the
cleaning (only 不明 is filtered out), so a grouped gender sum can range over
a gender other than 男性 and 女性. -/
theorem C10_counterexample_gender_not_binary :
    load_and_clean_data [⟨some "京都市", some "総数", some "通勤", [some "10"]⟩] =
      [⟨some "京都市", some "総数", some "通勤", [some 10]⟩] ∧
    genderGroups
        (load_and_clean_data
          [⟨some "京都市", some "総数", some "通勤", [some "10"]⟩]) = ["総数"] := by
  constructor
  · decide
  · decide

/-- C10 (amended): the cleaning removes every row whose 通勤・通学 is
missing and every row whose 性別 is 不明; consequently, whenever the input's
性別 values range over blank, 男性, 女性 and 不明 (as in the source data),
every `groupby('性別')` group of the cleaned table is 男性 or 女性. -/
theorem C10_amended_cleaning :
    (∀ (rows : List CensusRow) (r : CensusNumRow),
        r ∈ load_and_clean_data rows →
          r.commute ≠ none ∧ r.gender ≠ some "不明") ∧
    (∀ rows : List CensusRow,
        (∀ r ∈ rows, r.gender = none ∨ r.gender = some "男性" ∨
          r.gender = some "女性" ∨ r.gender = some "不明") →
        ∀ g ∈ genderGroups (load_and_clean_data rows),
          g = "男性" ∨ g = "女性") := by
  constructor
  · intro rows r hr
    simp only [load_and_clean_data, List.mem_map, List.mem_filter] at hr
    obtain ⟨r0, ⟨⟨⟨h0, hblank⟩, hcomm⟩, hgen⟩, rfl⟩ := hr
    refine ⟨?_, ?_⟩
    · simpa [Option.isSome_iff_ne_none] using hcomm
    · simpa using hgen
  · intro rows hall g hg
    simp only [genderGroups, List.mem_dedup, List.mem_filterMap] at hg
    obtain ⟨r, hr, hgen⟩ := hg
    simp only [load_and_clean_data, List.mem_map, List.mem_filter] at hr
    obtain ⟨r0, ⟨⟨⟨h0, hblank⟩, hcomm⟩, hne⟩, rfl⟩ := hr
    have hg0 : r0.gender = some g := hgen
    rcases hall r0 h0 with h | h | h | h
    · simp [h] at hg0
    · rw [h] at hg0; exact Or.inl (Option.some_injective _ hg0.symm)
    · rw [h] at hg0; exact Or.inr (Option.some_injective _ hg0.symm)
    · simp [bne_iff_ne] at hne
      exact absurd (hg0 ▸ h) hne

/-- Witness for C10 (amended): a concrete cleaned row keeps a present
通勤・通学 and a 性別 other than 不明, and over an input whose genders are
drawn from the source vocabulary the groups are 男性 or 女性. -/
theorem C10_amended_cleaning_witness :
    ((CensusNumRow.mk (some "京都市") (some "男性") (some "通勤")
        [some 10]).commute ≠ none ∧
      (CensusNumRow.mk (some "京都市") (some "男性") (some "通勤")
        [some 10]).gender ≠ some "不明") ∧
    ("男性" = "男性" ∨ "男性" = "女性") :=
  ⟨C10_amended_cleaning.1
      [⟨some "京都市", some "男性", some "通勤", [some "10"]⟩]
      (CensusNumRow.mk (some "京都市") (some "男性") (some "通勤") [some 10])
      (by decide),
   C10_amended_cleaning.2
      [⟨some "京都市", some "男性", some "通勤", [some "10"]⟩]
      (by decide) "男性" (by decide)⟩

/-- C5: sorting tidy records by the canonical category follows the declared
total order of the fixed category list (for every table the sorted result is
ordered by category rank and is a permutation of the input), and this
disagrees with lexical label order: the 9時台-equivalent bands 9時前半 and
9時後半 rank strictly before 10時台 although the label 10時台 sorts before
both as a string, so the lexical sort places the 10時台 record first while
the categorical sort places the 9時後半 record first. -/
theorem C5_category_sort_declared_order :
    (∀ l : List TidyRecord,
        List.Sorted catLeProp (sortTidyByCategory l) ∧
          List.Perm (sortTidyByCategory l) l) ∧
    catRank time_order (some "9時前半") < catRank time_order (some "10時台") ∧
    catRank time_order (some "9時後半") < catRank time_order (some "10時台") ∧
    charsLt "10時台".data "9時前半".data = true ∧
    charsLt "10時台".data "9時後半".data = true ∧
    sortTidyByCategory [c5RecLate, c5RecEarly] = [c5RecEarly, c5RecLate] ∧
    sortTidyByLabel [c5RecLate, c5RecEarly] = [c5RecLate, c5RecEarly] := by
  refine ⟨?_, by decide, by decide, by decide, by decide, by decide, by decide⟩
  intro l
  exact ⟨List.sorted_insertionSort catLeProp l,
         List.perm_insertionSort catLeProp l⟩

theorem postStage_stationPair (m : String → Option String) (co : List String)
    (r : TidyRecord) : (postStage m co r).stationPair = rawPairKey r := rfl

theorem postStage_value (m : String → Option String) (co : List String)
    (r : TidyRecord) : (postStage m co r).value = r.value := rfl

/-- Unfolding `tidySum` over a cons cell. -/
theorem tidySum_cons (k : String) (r : TidyRecord) (rs : List TidyRecord) :
    tidySum k (r :: rs) =
      (if r.stationPair == k then r.value.getD 0 else 0) + tidySum k rs := by
  by_cases hb : (r.stationPair == k) = true
  · cases hv : r.value <;> simp [tidySum, List.filter_cons, hb, hv]
  · simp [tidySum, List.filter_cons, hb]

/-- `tidySum` is additive over list append. -/
theorem tidySum_append (k : String) (l1 l2 : List TidyRecord) :
    tidySum k (l1 ++ l2) = tidySum k l1 + tidySum k l2 := by
  induction l1 with
  | nil => simp [tidySum]
  | cons r rs ih => simp [tidySum_cons, ih, add_assoc]

/-- Dropping the records with missing value does not change the keyed value
totals (a missing value contributes nothing). -/
theorem tidySum_filter_value (k : String) :
    ∀ l : List TidyRecord,
      tidySum k (l.filter (fun r => r.value.isSome)) = tidySum k l := by
  intro l
  induction l with
  | nil => rfl
  | cons r rs ih =>
    cases hv : r.value with
    | none => simp [List.filter_cons, hv, tidySum_cons, ih]
    | some v => simp [List.filter_cons, hv, tidySum_cons, ih]

/-- `tidySum` over the fused post-melt stages is the keyed contribution of
the melted batch. -/
theorem tidySum_map_post (k : String) (m : String → Option String)
    (co : List String) :
    ∀ l : List TidyRecord,
      tidySum k (l.map (postStage m co)) = meltContrib k l := by
  intro l
  induction l with
  | nil => rfl
  | cons r rs ih =>
    simp [List.map_cons, tidySum_cons, meltContrib, postStage_stationPair,
      postStage_value, ih, meltContrib]

theorem meltContrib_append (k : String) (l1 l2 : List TidyRecord) :
    meltContrib k (l1 ++ l2) = meltContrib k l1 + meltContrib k l2 := by
  simp [meltContrib]

/-- The keyed contribution of one melted band column, row by row. -/
theorem meltContrib_map_meltRec (k : String) (c : String)
    (nums : List NumRow) :
    meltContrib k (nums.map (meltRec c)) =
      (nums.map (fun r =>
        if numKey r == k then (r.vals.getD 0 none).getD 0 else 0)).sum := by
  simp only [meltContrib, List.map_map]
  rfl

/-- Splitting a numeric row's keyed contribution into its head value cell
and the rest. -/
theorem numRowContrib_split (k : String) (r : NumRow) (h : r.vals ≠ []) :
    (if numKey r == k then (r.vals.getD 0 none).getD 0 else 0) +
      numRowContrib k (dropHeadVal r) = numRowContrib k r := by
  cases hv : r.vals with
  | nil => exact absurd hv h
  | cons v vs =>
    simp only [numRowContrib, dropHeadVal, numKey, hv, List.tail_cons,
      List.getD_cons_zero, List.map_cons, List.sum_cons]
    split <;> simp

/-- The keyed contribution of the whole melt equals the sum of the per-row
contributions, for rows whose value-cell count matches the melted column
count. -/
theorem melt_contrib_sum (k : String) :
    ∀ (cols : List String) (nums : List NumRow),
      (∀ r ∈ nums, r.vals.length = cols.length) →
      meltContrib k (melt cols nums) = (nums.map (numRowContrib k)).sum := by
  intro cols
  induction cols with
  | nil =>
    intro nums hlen
    simp only [melt]
    rw [show meltContrib k [] = 0 from rfl]
    symm
    apply List.sum_eq_zero
    intro x hx
    obtain ⟨r, hr, rfl⟩ := List.mem_map.mp hx
    have h0 : r.vals = [] := List.length_eq_zero.mp (hlen r hr)
    simp [numRowContrib, h0]
  | cons c cs ih =>
    intro nums hlen
    simp only [melt]
    rw [meltContrib_append, meltContrib_map_meltRec]
    rw [ih (nums.map dropHeadVal) (by
      intro r' hr'
      obtain ⟨r, hr, rfl⟩ := List.mem_map.mp hr'
      have hl := hlen r hr
      simp only [List.length_cons] at hl
      simp [dropHeadVal, hl])]
    rw [List.map_map]
    rw [← List.sum_map_add]
    apply congrArg
    apply List.map_congr_left
    intro r hr
    have hl := hlen r hr
    apply numRowContrib_split
    intro hnil
    rw [hnil] at hl
    simp at hl

/-- Summing the present values of optional cells equals summing with NaN as
zero. -/
theorem sum_getD_filterMap :
    ∀ l : List (Option Int),
      (l.filterMap id).sum = (l.map (fun v => v.getD 0)).sum := by
  intro l
  induction l with
  | nil => rfl
  | cons v vs ih => cases v <;> simp [ih]

/-- A wide row's parseable-cell sum restated over its numeric form. -/
theorem wideRowSum_eq_toNumeric (w : WideRow) :
    wideRowSum w = ((toNumeric w).vals.map (fun v => v.getD 0)).sum := by
  rw [← sum_getD_filterMap]
  simp [wideRowSum, toNumeric, List.filterMap_map]

/-- Moving a key guard from an if under the sum into a filter. -/
theorem sum_map_ite_filter {α : Type} (p : α → Bool) (f : α → Int) :
    ∀ l : List α,
      (l.map (fun a => if p a then f a else 0)).sum =
        ((l.filter p).map f).sum := by
  intro l
  induction l with
  | nil => rfl
  | cons a as ih =>
    by_cases hp : p a = true <;> simp [List.filter_cons, hp, ih]

/-- C3: over any loaded wide table whose rows carry one cell per band
column, summing the tidy 輸送人員 values of the records sharing a composite
key equals summing that key's parseable raw band cells — cells that are
missing or fail numeric parse are excluded on both sides. -/
theorem C3_roundtrip_sum (rows : List WideRow) (k : String)
    (hlen : ∀ r ∈ loadedWide rows, r.bands.length = bandColumns.length) :
    tidySum k (load_and_preprocess_data rows) = wideSum k (loadedWide rows) := by
  have h1 : load_and_preprocess_data rows =
      (meltedKeyed bandColumns time_mapping time_order (loadedWide rows)).filter
        (fun r => r.value.isSome) := rfl
  rw [h1, tidySum_filter_value]
  have h2 : meltedKeyed bandColumns time_mapping time_order (loadedWide rows) =
      (melt bandColumns ((loadedWide rows).map toNumeric)).map
        (postStage time_mapping time_order) := by
    simp only [meltedKeyed, List.map_map]
    rfl
  rw [h2, tidySum_map_post]
  rw [melt_contrib_sum k bandColumns ((loadedWide rows).map toNumeric) (by
    intro r hr
    obtain ⟨w, hw, rfl⟩ := List.mem_map.mp hr
    simpa [toNumeric] using hlen w hw)]
  rw [List.map_map]
  unfold wideSum
  rw [← sum_map_ite_filter (fun w => wideKey w == k) wideRowSum]
  apply congrArg
  apply List.map_congr_left
  intro w _
  simp only [Function.comp_apply, numRowContrib]
  rw [wideRowSum_eq_toNumeric]
  rfl

/-- Witness for C3: a one-row table with the full 19-cell band schema, two
parseable cells (1,200 and 800) and an unparseable cell, summed at the key
A-B. -/
theorem C3_roundtrip_sum_witness :
    tidySum "A-B"
        (load_and_preprocess_data
          [⟨some "Op", some "LineX", some "down", some "A", some "B",
            [some "1,200", some "800", some "n/a", none, none, none, none,
             none, none, none, none, none, none, none, none, none, none,
             none, none]⟩]) =
      wideSum "A-B"
        (loadedWide
          [⟨some "Op", some "LineX", some "down", some "A", some "B",
            [some "1,200", some "800", some "n/a", none, none, none, none,
             none, none, none, none, none, none, none, none, none, none,
             none, none]⟩]) :=
  C3_roundtrip_sum
    [⟨some "Op", some "LineX", some "down", some "A", some "B",
      [some "1,200", some "800", some "n/a", none, none, none, none,
       none, none, none, none, none, none, none, none, none, none,
       none, none]⟩]
    "A-B" (by decide)
